import Mathlib

/-!
# Legacy-shell (wl_shell) views of the tablecloth compositor

A shallow embedding of `src/src/wl_shell.cpp` together with the declarations of
`src/tablecloth/view.hpp` that it uses.

Conventions of the embedding:

* an object pointer is an address (`Ptr`); a pointer that may be null is an `Option Ptr`;
* an owning `util::ptr_vec<T>` is a list of (address, object) entries in insertion order;
* a `double` is a finite value (an exact rational), an infinity or NaN; `+` and `-` on
  doubles round to nearest, ties to even, as IEEE 754 binary64 does; the two zeros are one
  value and there is one NaN; `float` members carry no arithmetic and share the type;
* `int` is `Int`, `uint32_t` is `Nat`; the conversions between them are written out;
* every handler threads its state explicitly, and every call it makes into code that is
  not part of `wl_shell.cpp` is appended, in order, to a call record (`calls`).
-/

namespace cloth

/-- Address of a heap object or of a backend (wlroots) object. -/
abbrev Ptr := Nat

/-- The C++ `double` (IEEE 754 binary64; also the carrier of the `float` members): a finite
value, an infinity or NaN. -/
inductive double where
  | finite (q : ℚ)
  | inf (negative : Bool)
  | nan
  deriving DecidableEq, Repr

/-- Number of binary digits of `n`, counted by halving at most `fuel` times. -/
def bit_length_aux : Nat → Nat → Nat
  | 0, _ => 0
  | fuel + 1, n => if n = 0 then 0 else bit_length_aux fuel (n / 2) + 1

/-- Number of binary digits of `n` (0 for 0). -/
def bit_length (n : Nat) : Nat := bit_length_aux n n

/-- The integer nearest to `n / d`, the even one of the two when `n / d` is halfway. -/
def round_half_even (n d : Nat) : Nat :=
  let k := n / d
  let r := n % d
  if 2 * r < d then k
  else if d < 2 * r then k + 1
  else if k % 2 = 0 then k else k + 1

/-- The exponent `e` with `2 ^ e ≤ n / d < 2 ^ (e + 1)`, for positive `n` and `d`. -/
def floor_log2 (n d : Nat) : Int :=
  let e0 : Int := (bit_length n : Int) - (bit_length d : Int)
  if n * 2 ^ (-e0).toNat < d * 2 ^ e0.toNat then e0 - 1 else e0

/-- Rounding of an exact value to binary64, to nearest with ties to even: 53 significant
bits, least exponent -1074, overflow to an infinity from `2 ^ 1024 - 2 ^ 970` on. -/
def double.round (q : ℚ) : double :=
  if q = 0 then double.finite 0
  else
    let n := q.num.natAbs
    let d := q.den
    let p : Int := max (floor_log2 n d - 52) (-1074)
    let k := round_half_even (n * 2 ^ (-p).toNat) (d * 2 ^ p.toNat)
    if 2 ^ 1024 ≤ k * 2 ^ p.toNat then double.inf (decide (q < 0))
    else double.finite (mkRat ((if q < 0 then -1 else 1) * ((k * 2 ^ p.toNat : Nat) : Int))
      (2 ^ (-p).toNat))

/-- Addition of doubles. -/
def double.add : double → double → double
  | double.finite a, double.finite b => double.round (a + b)
  | double.finite _, double.inf n => double.inf n
  | double.inf n, double.finite _ => double.inf n
  | double.inf n, double.inf m => if n = m then double.inf n else double.nan
  | _, _ => double.nan

/-- Subtraction of doubles. -/
def double.sub : double → double → double
  | double.finite a, double.finite b => double.round (a - b)
  | double.finite _, double.inf n => double.inf (!n)
  | double.inf n, double.finite _ => double.inf n
  | double.inf n, double.inf m => if n = m then double.nan else double.inf n
  | _, _ => double.nan

/-- Conversion of an unsigned integer to `double`. -/
def double.of_nat (n : Nat) : double := double.round n

/-- Conversion of a signed integer to `double`. -/
def double.of_int (i : Int) : double := double.round i

instance : Add double := ⟨double.add⟩

instance : Sub double := ⟨double.sub⟩

instance : NatCast double := ⟨double.of_nat⟩

instance : IntCast double := ⟨double.of_int⟩

instance (n : Nat) : OfNat double n := ⟨double.of_nat n⟩

/-- Conversion `int → uint32_t` (value modulo 2^32). -/
def to_uint32 (i : Int) : Nat := (i % 2 ^ 32).toNat

/-- Conversion `uint32_t → int` (two's complement wrap-around). -/
def to_int (n : Int) : Int := (n + 2 ^ 31) % 2 ^ 32 - 2 ^ 31

/-- Conversion `double → int`: truncation toward zero. A value outside the range of `int`
is undefined behaviour in C++; here a finite one wraps around and an infinity or NaN
gives 0. -/
def double_to_int : double → Int
  | double.finite q => to_int (Int.tdiv q.num q.den)
  | _ => 0

/-- The owning vector `util::ptr_vec<T>`: the owned objects with their addresses. -/
abbrev ptr_vec (α : Type) := List (Ptr × α)

/-- Modelled from the spec: `ptr_vec::push_back` (util/ptr_vec.hpp is not among the sources).
The spec has create_popup append to `children` and return an ownership-tracked reference
within it: the object is added at the end and the reference to it (its address) is
returned. -/
def ptr_vec.push_back {α : Type} (vec : ptr_vec α) (obj : Ptr × α) : ptr_vec α × Ptr :=
  (vec ++ [obj], obj.1)

/-- Modelled from the spec: `util::erase_this` (util/algorithm.hpp is not among the
sources). The spec has the object removed from its collection: the entry whose address is
`el` is erased (the first one, as `find` followed by `erase` does), the rest is kept. -/
def erase_this {α : Type} : ptr_vec α → Ptr → ptr_vec α
  | [], _ => []
  | e :: rest, el => if e.1 = el then rest else e :: erase_this rest el

/-- The algorithm `util::find_if` on a `ptr_vec`: the first entry whose object satisfies
`pred`, or `none` for the end iterator. -/
def find_if {α : Type} (vec : ptr_vec α) (pred : α → Bool) : Option (Ptr × α) :=
  vec.find? (fun e => pred e.2)

namespace wlr

/-- The wlroots `wlr_box`. -/
structure box_t where
  x : Int
  y : Int
  width : Int
  height : Int
  deriving DecidableEq, Repr

/-- The wlroots `enum wlr_wl_shell_surface_state`. -/
inductive wl_shell_surface_state where
  | NONE
  | TOPLEVEL
  | MAXIMIZED
  | FULLSCREEN
  | TRANSIENT
  | POPUP
  deriving DecidableEq, Repr

/-- The fields of `wlr_surface_state` that the code reads. -/
structure surface_state where
  width : Int
  height : Int
  deriving DecidableEq, Repr

/-- A `wlr_surface` with its address. -/
structure surface_t where
  addr : Ptr
  current : surface_state
  deriving DecidableEq, Repr

/-- The wlroots `wlr_wl_shell_surface_transient_state`. -/
structure wl_shell_surface_transient_state where
  x : Int
  y : Int
  deriving DecidableEq, Repr

/-- A `wlr_wl_shell_surface` with its address, as the handlers read it. -/
structure wl_shell_surface_t where
  addr : Ptr
  surface : surface_t
  state : wl_shell_surface_state
  parent : Option Ptr
  transient_state : Option wl_shell_surface_transient_state
  deriving DecidableEq, Repr

/-- The wlroots `wlr_seat_client`: `seat` is the `wlr_seat` it belongs to. -/
structure seat_client_t where
  seat : Ptr
  deriving DecidableEq, Repr

/-- The wlroots `wlr_wl_shell_surface_move_event`. -/
structure wl_shell_surface_move_event_t where
  seat : seat_client_t
  serial : Nat
  deriving DecidableEq, Repr

/-- The wlroots `wlr_wl_shell_surface_resize_event`. -/
structure wl_shell_surface_resize_event_t where
  seat : seat_client_t
  serial : Nat
  edges : Nat
  deriving DecidableEq, Repr

/-- The wlroots `wlr_wl_shell_surface_set_fullscreen_event`. -/
structure wl_shell_surface_set_fullscreen_event_t where
  method : Nat
  framerate : Nat
  output : Option Ptr
  deriving DecidableEq, Repr

end wlr

/-- The variants of `ViewChild` declared in view.hpp, with the handle each one adds. -/
inductive ViewChildKind where
  | Subsurface (wlr_subsurface : Ptr)
  | WlShellPopup (wlr_popup : Ptr)
  | XdgPopupV6 (wlr_popup : Ptr)
  | XdgPopup (wlr_popup : Ptr)
  deriving DecidableEq, Repr

/-- The `struct ViewChild`: back-reference to the owning View and the backing surface. -/
structure ViewChild where
  view : Ptr
  wlr_surface : Ptr
  kind : ViewChildKind
  deriving DecidableEq, Repr

/-- The member `View::saved`: a `wlr::box_t` with a rotation. -/
structure Saved where
  x : Int
  y : Int
  width : Int
  height : Int
  rotation : double
  deriving DecidableEq, Repr

/-- The member `View::pending_move_resize`. -/
structure PendingMoveResize where
  update_x : Bool
  update_y : Bool
  x : double
  y : double
  width : Nat
  height : Nat
  deriving DecidableEq, Repr

/-- The data members of `struct View` (listeners and signals are not state of the model). -/
structure View where
  mapped : Bool
  active : Bool
  x : double
  y : double
  width : Nat
  height : Nat
  rotation : double
  alpha : double
  decorated : Bool
  border_width : Int
  titlebar_height : Int
  maximized : Bool
  fullscreen_output : Option Ptr
  wlr_surface : Option Ptr
  children : ptr_vec ViewChild
  saved : Saved
  pending_move_resize : PendingMoveResize
  deriving DecidableEq, Repr

/-- The classes derived from `View` in view.hpp, with the protocol object each one binds. -/
inductive ViewKind where
  | WlShellSurface (wl_shell_surface : Ptr)
  | XdgSurfaceV6 (xdg_surface : Ptr)
  | XdgSurface (xdg_surface : Ptr)
  | XwaylandSurface (xwayland_surface : Ptr)
  deriving DecidableEq, Repr

/-- An object of a class derived from `View`, as `Desktop::views` owns it. -/
structure ViewObj where
  view : View
  kind : ViewKind
  deriving DecidableEq, Repr

/-- The enumeration `Cursor::Mode`. Only `Passthrough` is named in the sources; every other
mode is a `Grab` with its enumerator number. -/
inductive Cursor.Mode where
  | Passthrough
  | Grab (n : Nat)
  deriving DecidableEq, Repr

/-- The part of `Cursor` that the handlers read. -/
structure Cursor where
  mode : Cursor.Mode
  deriving DecidableEq, Repr

/-- The part of `Seat` that the handlers read: its `wlr_seat` and its cursor. -/
structure Seat where
  seat : Ptr
  cursor : Cursor
  deriving DecidableEq, Repr

/-- The seats of `Input`. -/
structure Input where
  seats : ptr_vec Seat
  deriving DecidableEq, Repr

/-- Modelled from the spec: `Input::seat_from_wlr_seat` (input.cpp is not among the
sources). The spec has the variant resolve the seat owning the requesting input device, or
find none: the first seat bound to the given `wlr_seat`, as a pointer with its object. -/
def Input.seat_from_wlr_seat (input : Input) (wlr_seat : Ptr) : Option (Ptr × Seat) :=
  find_if input.seats (fun s => s.seat == wlr_seat)

/-- Writes a seat back through its pointer. -/
def Input.store (input : Input) (p : Ptr) (s : Seat) : Input :=
  { input with seats := input.seats.map (fun e => if e.1 = p then (p, s) else e) }

/-- The collaborators of the view core that neither the sources nor the spec define: the
output layout, the seat grab entry points, `View::setup` and `wl_container_of`. -/
structure Env where
  usable_area : View → wlr.box_t
  output_box : Ptr → wlr.box_t
  get_output : View → Option Ptr
  setup : View → View
  begin_move : Seat → View → Seat × View
  begin_resize : Seat → View → Nat → Seat × View
  container_of : wlr.surface_t → wlr.wl_shell_surface_t

/-- A call from `wl_shell.cpp` into code outside it; `view` is the receiving View. -/
inductive Call where
  | apply_damage (view : Ptr)
  | update_size (view : Ptr) (width height : Nat)
  | update_position (view : Ptr) (x y : double)
  | maximize (view : Ptr) (maximized : Bool)
  | set_fullscreen (view : Ptr) (fullscreen : Bool) (output : Option Ptr)
  | begin_move (seat : Ptr) (view : Ptr)
  | begin_resize (seat : Ptr) (view : Ptr) (edges : Nat)
  | ping (surface : Ptr)
  | map (view : Ptr) (surface : Ptr)
  | setup (view : Ptr)
  | move (view : Ptr) (x y : double)
  deriving DecidableEq, Repr

/-- The geometry and rotation of a View as `View::saved` stores them. -/
def View.snapshot (v : View) : Saved :=
  { x := double_to_int v.x, y := double_to_int v.y,
    width := to_int v.width, height := to_int v.height, rotation := v.rotation }

/-- Puts the geometry and rotation of `View::saved` back. -/
def View.restore (v : View) : View :=
  { v with x := v.saved.x, y := v.saved.y,
           width := to_uint32 v.saved.width, height := to_uint32 v.saved.height,
           rotation := v.saved.rotation }

/-- Gives a View the geometry of a box. -/
def View.place (v : View) (box : wlr.box_t) : View :=
  { v with x := box.x, y := box.y,
           width := to_uint32 box.width, height := to_uint32 box.height }

/-- Modelled from the spec: `View::maximize` (view.cpp is not among the sources). On enable
it clears any active fullscreen state first, snapshots geometry and rotation, clears the
rotation and takes the usable area of the assigned output; on disable it restores the
snapshot. On an unmapped View it is a no-op. -/
def View.maximize (env : Env) (maximized : Bool) (v : View) : View :=
  if !v.mapped then v
  else if maximized then
    let v := if v.fullscreen_output != none then { v.restore with fullscreen_output := none } else v
    { ({ v with saved := v.snapshot, rotation := 0 } : View).place (env.usable_area v) with
      maximized := true }
  else { v.restore with maximized := false }

/-- Modelled from the spec: `View::set_fullscreen` (view.cpp is not among the sources).
Analogous to maximize: on enable it clears any maximized state first, snapshots geometry and
rotation, takes the full box of the output and records the output in `fullscreen_output`; on
disable it restores the snapshot and clears `fullscreen_output`. A null `output` stands for
the output the View is on (`View::get_output`); without one nothing changes. On an unmapped
View it is a no-op. -/
def View.set_fullscreen (env : Env) (fullscreen : Bool) (output : Option Ptr) (v : View) : View :=
  if !v.mapped then v
  else if fullscreen then
    match output <|> env.get_output v with
    | none => v
    | some out =>
      let v := if v.maximized then { v.restore with maximized := false } else v
      { ({ v with saved := v.snapshot, rotation := 0 } : View).place (env.output_box out) with
        fullscreen_output := some out }
  else { v.restore with fullscreen_output := none }

/-- Modelled from the spec: `View::move` (view.cpp is not among the sources). A variant
without negotiation applies the geometry immediately; on an unmapped View it is a no-op. -/
def View.move (x y : double) (v : View) : View :=
  if v.mapped then { v with x := x, y := y } else v

/-- Modelled from the spec: `View::map` (view.cpp is not among the sources). It binds the
content, sets `mapped` and captures the initial geometry from the committed size of the
surface (initial focus and output arrangement are requests to collaborators). -/
def View.map (surface : wlr.surface_t) (v : View) : View :=
  { v with wlr_surface := some surface.addr, mapped := true,
           width := to_uint32 surface.current.width,
           height := to_uint32 surface.current.height }

/-- Modelled from the spec: `View::update_size` (view.cpp is not among the sources): the
size of the data model takes the given values. -/
def View.update_size (width height : Nat) (v : View) : View :=
  { v with width := width, height := height }

/-- Modelled from the spec: `View::update_position` (view.cpp is not among the sources):
the position of the data model takes the given values. -/
def View.update_position (x y : double) (v : View) : View :=
  { v with x := x, y := y }

/-- The state a handler of a `WlShellSurface` works on: the object `*this` with its
address, the seats of `desktop.server.input`, and the record of the calls made so far. -/
structure Ctx where
  this : Ptr
  view : View
  input : Input
  calls : List Call
  deriving DecidableEq, Repr

/-- The call `apply_damage()`: damage goes to the renderer, no member changes. -/
def Ctx.apply_damage (c : Ctx) : Ctx :=
  { c with calls := c.calls ++ [Call.apply_damage c.this] }

/-- The call `update_size(width, height)`. -/
def Ctx.update_size (width height : Nat) (c : Ctx) : Ctx :=
  { c with view := c.view.update_size width height,
           calls := c.calls ++ [Call.update_size c.this width height] }

/-- The call `update_position(x, y)`. -/
def Ctx.update_position (x y : double) (c : Ctx) : Ctx :=
  { c with view := c.view.update_position x y,
           calls := c.calls ++ [Call.update_position c.this x y] }

/-- The call `maximize(maximized)`. -/
def Ctx.maximize (env : Env) (maximized : Bool) (c : Ctx) : Ctx :=
  { c with view := c.view.maximize env maximized,
           calls := c.calls ++ [Call.maximize c.this maximized] }

/-- The call `set_fullscreen(fullscreen, output)`. -/
def Ctx.set_fullscreen (env : Env) (fullscreen : Bool) (output : Option Ptr) (c : Ctx) : Ctx :=
  { c with view := c.view.set_fullscreen env fullscreen output,
           calls := c.calls ++ [Call.set_fullscreen c.this fullscreen output] }

/-- The call `seat->begin_move(*this)` on the seat behind the pointer `seat`. -/
def Ctx.begin_move (env : Env) (seat : Ptr × Seat) (c : Ctx) : Ctx :=
  let r := env.begin_move seat.2 c.view
  { c with view := r.2, input := c.input.store seat.1 r.1,
           calls := c.calls ++ [Call.begin_move seat.1 c.this] }

/-- The call `seat->begin_resize(*this, edges)` on the seat behind the pointer `seat`. -/
def Ctx.begin_resize (env : Env) (seat : Ptr × Seat) (edges : Nat) (c : Ctx) : Ctx :=
  let r := env.begin_resize seat.2 c.view edges
  { c with view := r.2, input := c.input.store seat.1 r.1,
           calls := c.calls ++ [Call.begin_resize seat.1 c.this edges] }

/-- The constructor `WlShellPopup::WlShellPopup` (wl_shell.cpp:14-25), without the handler
registrations: a `ViewChild` of `p_view` on the surface of the popup, keeping the popup
handle. -/
def WlShellPopup.ctor (p_view : Ptr) (p_wlr_popup : wlr.wl_shell_surface_t) : ViewChild :=
  { view := p_view, wlr_surface := p_wlr_popup.surface.addr,
    kind := ViewChildKind.WlShellPopup p_wlr_popup.addr }

namespace WlShellSurface

/-- The handler `on_request_move` (wl_shell.cpp:44-52). -/
def on_request_move (env : Env) (e : wlr.wl_shell_surface_move_event_t) (c : Ctx) : Ctx :=
  match c.input.seat_from_wlr_seat e.seat.seat with
  | none => c
  | some seat =>
    if seat.2.cursor.mode != Cursor.Mode.Passthrough then c
    else c.begin_move env seat

/-- The handler `on_request_resize` (wl_shell.cpp:55-63). -/
def on_request_resize (env : Env) (e : wlr.wl_shell_surface_resize_event_t) (c : Ctx) : Ctx :=
  match c.input.seat_from_wlr_seat e.seat.seat with
  | none => c
  | some seat =>
    if seat.2.cursor.mode != Cursor.Mode.Passthrough then c
    else c.begin_resize env seat e.edges

/-- The handler `on_request_maximize` (wl_shell.cpp:66-69). -/
def on_request_maximize (env : Env) (c : Ctx) : Ctx :=
  c.maximize env true

/-- The handler `on_request_fullscreen` (wl_shell.cpp:72-75). -/
def on_request_fullscreen (env : Env) (e : wlr.wl_shell_surface_set_fullscreen_event_t)
    (c : Ctx) : Ctx :=
  c.set_fullscreen env true e.output

/-- The handler `on_set_state` (wl_shell.cpp:78-86); `wl_shell_surface` is the backend
object of the View as it is when the signal fires. -/
def on_set_state (env : Env) (wl_shell_surface : wlr.wl_shell_surface_t) (c : Ctx) : Ctx :=
  let c :=
    if c.view.maximized && wl_shell_surface.state != wlr.wl_shell_surface_state.MAXIMIZED then
      c.maximize env false
    else c
  let c :=
    if c.view.fullscreen_output != none &&
        wl_shell_surface.state != wlr.wl_shell_surface_state.FULLSCREEN then
      c.set_fullscreen env false none
    else c
  c

/-- The handler `on_surface_commit` (wl_shell.cpp:89-107). -/
def on_surface_commit (wl_shell_surface : wlr.wl_shell_surface_t) (c : Ctx) : Ctx :=
  let c := c.apply_damage
  let width : Int := wl_shell_surface.surface.current.width
  let height : Int := wl_shell_surface.surface.current.height
  let c := c.update_size (to_uint32 width) (to_uint32 height)
  let x : double := c.view.x
  let y : double := c.view.y
  let (x, c) :=
    if c.view.pending_move_resize.update_x then
      (c.view.pending_move_resize.x + c.view.pending_move_resize.width - width,
       { c with view := { c.view with
           pending_move_resize := { c.view.pending_move_resize with update_x := false } } })
    else (x, c)
  let (y, c) :=
    if c.view.pending_move_resize.update_y then
      (c.view.pending_move_resize.y + c.view.pending_move_resize.height - height,
       { c with view := { c.view with
           pending_move_resize := { c.view.pending_move_resize with update_y := false } } })
    else (y, c)
  c.update_position x y

/-- The method `WlShellSurface::create_popup` (wl_shell.cpp:119-123); `fresh` is the address
`make_unique` gives the new popup. The result is the state and the returned reference. -/
def create_popup (env : Env) (wlr_popup : wlr.surface_t) (fresh : Ptr) (c : Ctx) : Ctx × Ptr :=
  let xdg_pop := env.container_of wlr_popup
  let popup := WlShellPopup.ctor c.this xdg_pop
  let r := c.view.children.push_back (fresh, popup)
  ({ c with view := { c.view with children := r.1 } }, r.2)

end WlShellSurface

/-- What ends a run of the compositor instead of a return. -/
inductive Abort where
  | assertion_failed
  | null_dereference
  deriving DecidableEq, Repr

namespace XwaylandSurface

/-- The method `XwaylandSurface::create_popup` (view.hpp:320-323): its body is
`assert(false)`, so no call returns. -/
def create_popup (_c : Ctx) (_wlr_popup : wlr.surface_t) : Except Abort (Ctx × Ptr) :=
  Except.error Abort.assertion_failed

end XwaylandSurface

/-- Modelled from the spec: the constructor `View::View` (view.cpp is not among the
sources). A View starts unmapped; the members take the default member initializers of
view.hpp, and those without one (position, size, `maximized`, `saved`,
`pending_move_resize`) are whatever the storage `raw` holds. -/
def View.ctor (raw : View) : View :=
  { raw with mapped := false, active := false, rotation := 0, alpha := 1, decorated := false,
             border_width := 0, titlebar_height := 0, fullscreen_output := none,
             wlr_surface := none, children := [] }

/-- The constructor `WlShellSurface::WlShellSurface` (wl_shell.cpp:37-42), without the
handler registrations. -/
def WlShellSurface.ctor (raw : View) (p_wl_shell_surface : wlr.wl_shell_surface_t) : ViewObj :=
  { view := { View.ctor raw with
      wlr_surface := some p_wl_shell_surface.surface.addr,
      width := to_uint32 p_wl_shell_surface.surface.current.width,
      height := to_uint32 p_wl_shell_surface.surface.current.height },
    kind := ViewKind.WlShellSurface p_wl_shell_surface.addr }

/-- The part of `Desktop` the code works on: the view collection, with the record of the
calls made so far. -/
structure Desktop where
  views : ptr_vec ViewObj
  calls : List Call
  deriving DecidableEq, Repr

/-- The handler `on_destroy` of a `WlShellSurface` at address `this` (wl_shell.cpp:116). -/
def WlShellSurface.on_destroy (this : Ptr) (d : Desktop) : Desktop :=
  { d with views := erase_this d.views this }

/-- The predicate of the parent search (wl_shell.cpp:146-149): the object is a
`WlShellSurface` and is bound to `parent`. -/
def is_parent_of (surface : wlr.wl_shell_surface_t) (parent : ViewObj) : Bool :=
  match parent.kind with
  | ViewKind.WlShellSurface wl_shell_surface => some wl_shell_surface == surface.parent
  | _ => false

/-- The handler `Desktop::handle_wl_shell_surface` (wl_shell.cpp:125-155). `fresh` is the
address `make_unique` gives the new View and `raw` its storage before construction. The
reference `view` denotes the object just pushed onto `views`, so the collection is written
with the state of `view` at the points where the code reads it. Dereferencing a null
`transient_state` aborts. -/
def Desktop.handle_wl_shell_surface (env : Env) (surface : wlr.wl_shell_surface_t)
    (fresh : Ptr) (raw : View) (d : Desktop) : Except Abort Desktop :=
  if surface.state == wlr.wl_shell_surface_state.POPUP then
    Except.ok d
  else
    let calls := d.calls ++ [Call.ping surface.addr]
    let view_ptr := WlShellSurface.ctor raw surface
    let view := view_ptr.view.map surface.surface
    let calls := calls ++ [Call.map fresh surface.surface.addr]
    let view := env.setup view
    let calls := calls ++ [Call.setup fresh]
    let views := (d.views.push_back (fresh, { view_ptr with view := view })).1
    if surface.state == wlr.wl_shell_surface_state.TRANSIENT then
      match find_if views (is_parent_of surface) with
      | none => Except.ok { views := views, calls := calls }
      | some parent =>
        match surface.transient_state with
        | none => Except.error Abort.null_dereference
        | some transient_state =>
          let x : double := parent.2.view.x + transient_state.x
          let y : double := parent.2.view.y + transient_state.y
          let view := view.move x y
          Except.ok
            { views := (d.views.push_back (fresh, { view_ptr with view := view })).1,
              calls := calls ++ [Call.move fresh x y] }
    else Except.ok { views := views, calls := calls }

/-! ## Concrete objects

A small desktop used to evaluate the handlers: one seat in passthrough mode, three views
(two legacy-shell, one negotiated-shell), an output layout with a 30 pixel top panel. -/

/-- Collaborators of the concrete desktop. -/
def example_env : Env :=
  { usable_area := fun _ => ⟨0, 30, 1920, 1050⟩,
    output_box := fun _ => ⟨0, 0, 1920, 1080⟩,
    get_output := fun _ => some 7,
    setup := fun v => v,
    begin_move := fun s v => ({ s with cursor := ⟨Cursor.Mode.Grab 1⟩ }, v),
    begin_resize := fun s v _ => ({ s with cursor := ⟨Cursor.Mode.Grab 2⟩ }, v),
    container_of := fun s => ⟨s.addr + 1, s, wlr.wl_shell_surface_state.POPUP, none, none⟩ }

/-- A mapped View of 200 x 100 at (10, 20), neither maximized nor fullscreen. -/
def example_view : View :=
  { mapped := true, active := false, x := 10, y := 20, width := 200, height := 100,
    rotation := 0, alpha := 1, decorated := false, border_width := 0, titlebar_height := 0,
    maximized := false, fullscreen_output := none, wlr_surface := some 50, children := [],
    saved := ⟨0, 0, 0, 0, 0⟩, pending_move_resize := ⟨false, false, 0, 0, 0, 0⟩ }

/-- The backend object of `example_view` in a given state, with a committed size of
200 x 100. -/
def example_surface (st : wlr.wl_shell_surface_state) : wlr.wl_shell_surface_t :=
  { addr := 40, surface := ⟨50, ⟨200, 100⟩⟩, state := st, parent := none,
    transient_state := none }

/-- A handler state around a View at address 100, with one seat (address 60, `wlr_seat` 61)
whose cursor is in passthrough mode. -/
def example_ctx (v : View) : Ctx :=
  { this := 100, view := v, input := ⟨[(60, ⟨61, ⟨Cursor.Mode.Passthrough⟩⟩)]⟩, calls := [] }

/-- The double nearest to -50.7. -/
def example_fraction : double := double.finite (-3567695329807565 / 70368744177664)

/-- The View `example_view` with a pending request: update_x set, pending.x the double
nearest to -50.7, pending.y = 6, pending size 100 x 400. -/
def example_pending_view : View :=
  { example_view with pending_move_resize := ⟨true, false, example_fraction, 6, 100, 400⟩ }

/-- The legacy-shell View object bound to the backend object at address 40. -/
def example_parent : ViewObj := ⟨example_view, ViewKind.WlShellSurface 40⟩

/-- A desktop with three views. -/
def example_desktop : Desktop :=
  { views := [(100, example_parent),
              (101, ⟨{ example_view with x := 0, y := 0 }, ViewKind.XdgSurface 41⟩),
              (102, ⟨{ example_view with x := 300, y := 0 }, ViewKind.WlShellSurface 42⟩)],
    calls := [] }

/-- A new transient surface whose parent is the backend object at address 40, offset by
(5, 6). -/
def example_transient : wlr.wl_shell_surface_t :=
  { addr := 43, surface := ⟨53, ⟨80, 60⟩⟩, state := wlr.wl_shell_surface_state.TRANSIENT,
    parent := some 40, transient_state := some ⟨5, 6⟩ }

/-! ## Auxiliary facts -/

open wlr WlShellSurface

/-- On addresses without repetition, erasing the entry at an address keeps exactly the
entries at the other addresses, in order. -/
theorem erase_this_eq_filter {α : Type} (vec : ptr_vec α) (el : Ptr)
    (h : (vec.map Prod.fst).Nodup) :
    erase_this vec el = vec.filter (fun e => decide (e.1 ≠ el)) := by
  induction vec with
  | nil => rfl
  | cons e rest ih =>
    simp only [List.map_cons, List.nodup_cons] at h
    by_cases he : e.1 = el
    · have hrest : rest.filter (fun e => decide (e.1 ≠ el)) = rest := by
        rw [List.filter_eq_self]
        intro a ha
        simp only [ne_eq, decide_eq_true_eq]
        intro hc
        exact h.1 (by rw [he, ← hc]; exact List.mem_map_of_mem _ ha)
      rw [List.filter_cons, if_neg (by simp [he]), hrest]
      simp only [erase_this, he, if_true]
    · rw [List.filter_cons, if_pos (by simp [he]), ← ih h.2]
      simp only [erase_this, he, if_false]

/-- The search finds nothing exactly when no entry satisfies the predicate. -/
theorem find_if_eq_none_iff {α : Type} (vec : ptr_vec α) (pred : α → Bool) :
    find_if vec pred = none ↔ ∀ e ∈ vec, pred e.2 = false := by
  simp [find_if, List.find?_eq_none]

/-- A non-negative `int` survives the conversion to `uint32_t`. -/
theorem to_uint32_of_int_range (i : Int) (h0 : 0 ≤ i) (h1 : i < 2 ^ 31) :
    ((to_uint32 i : Nat) : Int) = i := by
  unfold to_uint32
  rw [Int.emod_eq_of_lt h0 (by omega)]
  exact Int.toNat_of_nonneg h0

/-- With enough fuel, a number is below two to the power of its digit count. -/
theorem lt_two_pow_bit_length_aux (fuel : Nat) : ∀ n, n ≤ fuel → n < 2 ^ bit_length_aux fuel n := by
  induction fuel with
  | zero =>
    intro n hn
    have : n = 0 := by omega
    subst this
    simp [bit_length_aux]
  | succ fuel ih =>
    intro n hn
    unfold bit_length_aux
    by_cases h0 : n = 0
    · simp [h0]
    · simp only [h0, if_false]
      have h := ih (n / 2) (by omega)
      rw [pow_succ]
      omega

/-- With enough fuel, a positive number has its leading digit set. -/
theorem two_pow_bit_length_aux_le (fuel : Nat) :
    ∀ n, n ≠ 0 → n ≤ fuel → 2 ^ (bit_length_aux fuel n - 1) ≤ n := by
  induction fuel with
  | zero =>
    intro n h0 hn
    omega
  | succ fuel ih =>
    intro n h0 hn
    unfold bit_length_aux
    simp only [h0, if_false, Nat.add_sub_cancel]
    by_cases h1 : n / 2 = 0
    · have : bit_length_aux fuel (n / 2) = 0 := by
        rw [h1]; cases fuel <;> simp [bit_length_aux]
      rw [this]
      simp
      omega
    · have h := ih (n / 2) h1 (by omega)
      have hpos : 0 < bit_length_aux fuel (n / 2) := by
        cases fuel with
        | zero => omega
        | succ f => unfold bit_length_aux; simp [h1]
      have : bit_length_aux fuel (n / 2) = (bit_length_aux fuel (n / 2) - 1) + 1 := by omega
      rw [this, pow_succ]
      omega

/-- A number is below two to the power of its digit count. -/
theorem lt_two_pow_bit_length (n : Nat) : n < 2 ^ bit_length n :=
  lt_two_pow_bit_length_aux n n le_rfl

/-- A positive number is at least two to the power of its digit count less one. -/
theorem two_pow_bit_length_le (n : Nat) (h : n ≠ 0) : 2 ^ (bit_length n - 1) ≤ n :=
  two_pow_bit_length_aux_le n n h le_rfl

/-- A positive number has at least one digit. -/
theorem bit_length_pos (n : Nat) (h : n ≠ 0) : 0 < bit_length n := by
  by_contra hc
  have h0 : bit_length n = 0 := by omega
  have := lt_two_pow_bit_length n
  rw [h0] at this
  omega

/-- A positive number below `2 ^ k` has at most `k` digits. -/
theorem bit_length_le_of_lt (n k : Nat) (h0 : n ≠ 0) (h : n < 2 ^ k) : bit_length n ≤ k := by
  by_contra hc
  have h1 := two_pow_bit_length_le n h0
  have h2 : 2 ^ k ≤ 2 ^ (bit_length n - 1) := Nat.pow_le_pow_right (by norm_num) (by omega)
  omega

/-- Rounding a whole number leaves it as it is. -/
theorem round_half_even_one (m : Nat) : round_half_even m 1 = m := by
  simp [round_half_even, Nat.mod_one]

/-- The binary exponent of a positive whole number. -/
theorem floor_log2_one (n : Nat) (h0 : n ≠ 0) :
    floor_log2 n 1 = (bit_length n : Int) - 1 := by
  have hb : bit_length 1 = 1 := by decide
  have hpos := bit_length_pos n h0
  have hle := two_pow_bit_length_le n h0
  unfold floor_log2
  simp only [hb]
  have h1 : (-((bit_length n : Int) - ((1 : Nat) : Int))).toNat = 0 := by omega
  have h2 : ((bit_length n : Int) - ((1 : Nat) : Int)).toNat = bit_length n - 1 := by omega
  rw [h1, h2]
  simp only [pow_zero, mul_one, one_mul]
  rw [if_neg (by omega)]
  simp


/-- Every integer of magnitude below `2 ^ 53` is a double: rounding leaves it as it is. -/
theorem round_int_exact (z : Int) (h : z.natAbs < 2 ^ 53) :
    double.round (z : ℚ) = double.finite (z : ℚ) := by
  by_cases hz : z = 0
  · subst hz
    simp [double.round]
  · have hq : (z : ℚ) ≠ 0 := by exact_mod_cast hz
    have hn0 : z.natAbs ≠ 0 := by simpa using hz
    have hpos := bit_length_pos _ hn0
    have hle := bit_length_le_of_lt _ 53 hn0 h
    have hlt := lt_two_pow_bit_length z.natAbs
    unfold double.round
    rw [if_neg hq]
    simp only [Rat.num_intCast, Rat.den_intCast, floor_log2_one _ hn0]
    have hp : max ((bit_length z.natAbs : Int) - 1 - 52) (-1074) = (bit_length z.natAbs : Int) - 53 := by
      omega
    rw [hp]
    have h1 : ((bit_length z.natAbs : Int) - 53).toNat = 0 := by omega
    have h2 : (-((bit_length z.natAbs : Int) - 53)).toNat = 53 - bit_length z.natAbs := by omega
    rw [h1, h2]
    simp only [pow_zero, mul_one, round_half_even_one]
    have hbound : z.natAbs * 2 ^ (53 - bit_length z.natAbs) < 2 ^ 53 := by
      calc z.natAbs * 2 ^ (53 - bit_length z.natAbs)
          < 2 ^ bit_length z.natAbs * 2 ^ (53 - bit_length z.natAbs) :=
            Nat.mul_lt_mul_of_pos_right hlt (by positivity)
        _ = 2 ^ 53 := by rw [← pow_add]; congr 1; omega
    have hbig : (2 : Nat) ^ 53 < 2 ^ 1024 := by
      apply Nat.pow_lt_pow_right <;> norm_num
    rw [if_neg (by omega)]
    congr 1
    rw [Rat.mkRat_eq_div]
    have hpow : ((2 : ℚ) ^ (53 - bit_length z.natAbs)) ≠ 0 := by positivity
    push_cast
    rw [div_eq_iff hpow]
    by_cases hneg : (z : ℚ) < 0
    · simp only [hneg, if_true]
      rw [abs_of_neg hneg]; ring
    · simp only [hneg, if_false]
      rw [abs_of_nonneg (not_lt.mp hneg)]; ring

/-- Conversion of an integer of magnitude below `2 ^ 53` is exact. -/
theorem of_int_exact (z : Int) (h : z.natAbs < 2 ^ 53) :
    ((z : Int) : double) = double.finite (z : ℚ) :=
  round_int_exact z h

/-- Conversion of a natural number below `2 ^ 53` is exact. -/
theorem of_nat_exact (n : Nat) (h : n < 2 ^ 53) :
    ((n : Nat) : double) = double.finite (n : ℚ) := by
  have := round_int_exact (n : Int) (by simpa using h)
  simpa using this

/-- Addition of two integer-valued doubles whose sum is below `2 ^ 53` in magnitude is
exact. -/
theorem add_int_exact (a b : Int) (h : (a + b).natAbs < 2 ^ 53) :
    double.finite (a : ℚ) + double.finite (b : ℚ) = double.finite ((a + b : Int) : ℚ) := by
  have hr := round_int_exact (a + b) h
  push_cast at hr ⊢
  exact hr

/-- Subtraction of two integer-valued doubles whose difference is below `2 ^ 53` in
magnitude is exact. -/
theorem sub_int_exact (a b : Int) (h : (a - b).natAbs < 2 ^ 53) :
    double.finite (a : ℚ) - double.finite (b : ℚ) = double.finite ((a - b : Int) : ℚ) := by
  have hr := round_int_exact (a - b) h
  push_cast at hr ⊢
  exact hr

/-- A constructed `WlShellSurface` is bound to the backend object it was given. -/
theorem ctor_kind (raw : View) (s : wl_shell_surface_t) :
    (WlShellSurface.ctor raw s).kind = ViewKind.WlShellSurface s.addr := rfl

/-! ## The claims -/

/-- C1 (as stated, refuted): a mapped legacy-shell View with maximized = false receives a
state-change signal while the backend reports MAXIMIZED; after the handler has run
maximized is still false, so the flag does not match the reported state. -/
theorem on_set_state_leaves_maximized_off :
    (example_ctx example_view).view.maximized = false ∧
    (example_surface wl_shell_surface_state.MAXIMIZED).state = wl_shell_surface_state.MAXIMIZED ∧
    (on_set_state example_env (example_surface wl_shell_surface_state.MAXIMIZED)
      (example_ctx example_view)).view.maximized = false ∧
    ¬ ((on_set_state example_env (example_surface wl_shell_surface_state.MAXIMIZED)
        (example_ctx example_view)).view.maximized = true ↔
       (example_surface wl_shell_surface_state.MAXIMIZED).state =
         wl_shell_surface_state.MAXIMIZED) := by
  decide

/-- C1 (amended): for every legacy-shell View and every backend state, after the
state-change handler has run maximized is true exactly when it was true before and the
backend reports the maximized state, and fullscreen_output is non-null exactly when it was
non-null before and the backend reports the fullscreen state, in which case it is the same
output as before (on an unmapped View, where maximize and set_fullscreen are no-ops, a flag
that was on stays on whatever the backend reports). In particular the handler turns no
flag on: maximized = false stays false. -/
theorem on_set_state_flags_exact (env : Env) (s : wl_shell_surface_t) (c : Ctx) :
    ((on_set_state env s c).view.maximized = true ↔
      c.view.maximized = true ∧
        (s.state = wl_shell_surface_state.MAXIMIZED ∨ c.view.mapped = false)) ∧
    ((on_set_state env s c).view.fullscreen_output ≠ none ↔
      c.view.fullscreen_output ≠ none ∧
        (s.state = wl_shell_surface_state.FULLSCREEN ∨ c.view.mapped = false)) ∧
    (∀ o, (on_set_state env s c).view.fullscreen_output = some o →
      c.view.fullscreen_output = some o) := by
  obtain ⟨this, v, input, calls⟩ := c
  cases hs : s.state <;> cases hmax : v.maximized <;> cases hf : v.fullscreen_output <;>
    cases hm : v.mapped <;>
    simp [on_set_state, Ctx.maximize, Ctx.set_fullscreen, View.maximize, View.set_fullscreen,
      View.restore, hs, hmax, hf, hm]

/-- C1 (amended), at concrete inputs: a mapped maximized View keeps maximized = true when
the backend reports MAXIMIZED and loses it when the backend reports NONE. -/
theorem on_set_state_flags_exact_witness :
    (on_set_state example_env (example_surface wl_shell_surface_state.MAXIMIZED)
      (example_ctx { example_view with maximized := true })).view.maximized = true ∧
    ¬ (on_set_state example_env (example_surface wl_shell_surface_state.NONE)
      (example_ctx { example_view with maximized := true })).view.maximized = true :=
  ⟨(on_set_state_flags_exact example_env (example_surface wl_shell_surface_state.MAXIMIZED)
      (example_ctx { example_view with maximized := true })).1.mpr ⟨rfl, Or.inl rfl⟩,
   fun h => absurd
    ((on_set_state_flags_exact example_env (example_surface wl_shell_surface_state.NONE)
      (example_ctx { example_view with maximized := true })).1.mp h).2 (by decide)⟩

/-- C2: on a request-move (request-resize) event the handler starts a grab, that is calls
begin_move (begin_resize with the edges of the event) on the seat behind pointer p, exactly
when the seat lookup for the requesting device yields the seat at p and the cursor of that
seat is in Passthrough mode; when no seat is found or its cursor is in another mode the
whole state (the View, every seat, the call record) is unchanged. -/
theorem request_move_resize_grab_iff (env : Env) (em : wl_shell_surface_move_event_t)
    (er : wl_shell_surface_resize_event_t) (c : Ctx) :
    (∀ p, (on_request_move env em c).calls = c.calls ++ [Call.begin_move p c.this] ↔
        ∃ s, c.input.seat_from_wlr_seat em.seat.seat = some (p, s) ∧
          s.cursor.mode = Cursor.Mode.Passthrough) ∧
    ((¬ ∃ p s, c.input.seat_from_wlr_seat em.seat.seat = some (p, s) ∧
          s.cursor.mode = Cursor.Mode.Passthrough) → on_request_move env em c = c) ∧
    (∀ p, (on_request_resize env er c).calls =
          c.calls ++ [Call.begin_resize p c.this er.edges] ↔
        ∃ s, c.input.seat_from_wlr_seat er.seat.seat = some (p, s) ∧
          s.cursor.mode = Cursor.Mode.Passthrough) ∧
    ((¬ ∃ p s, c.input.seat_from_wlr_seat er.seat.seat = some (p, s) ∧
          s.cursor.mode = Cursor.Mode.Passthrough) → on_request_resize env er c = c) := by
  refine ⟨?_, ?_, ?_, ?_⟩
  · intro p
    unfold on_request_move
    cases h : c.input.seat_from_wlr_seat em.seat.seat with
    | none => simp
    | some seat =>
      obtain ⟨q, s⟩ := seat
      by_cases hmode : s.cursor.mode = Cursor.Mode.Passthrough
      · simp only [hmode, Ctx.begin_move, bne_self_eq_false, Bool.false_eq_true, if_false,
          List.append_cancel_left_eq, List.cons.injEq, Call.begin_move.injEq, and_true,
          Option.some.injEq, Prod.mk.injEq]
        constructor
        · intro hq
          exact ⟨s, ⟨hq, rfl⟩, hmode⟩
        · rintro ⟨_, ⟨hq, _⟩, _⟩
          exact hq
      · simp [hmode]
  · intro hno
    unfold on_request_move
    cases h : c.input.seat_from_wlr_seat em.seat.seat with
    | none => simp
    | some seat =>
      obtain ⟨q, s⟩ := seat
      by_cases hmode : s.cursor.mode = Cursor.Mode.Passthrough
      · exact absurd ⟨q, s, h, hmode⟩ hno
      · simp [hmode]
  · intro p
    unfold on_request_resize
    cases h : c.input.seat_from_wlr_seat er.seat.seat with
    | none => simp
    | some seat =>
      obtain ⟨q, s⟩ := seat
      by_cases hmode : s.cursor.mode = Cursor.Mode.Passthrough
      · simp only [hmode, Ctx.begin_resize, bne_self_eq_false, Bool.false_eq_true, if_false,
          List.append_cancel_left_eq, List.cons.injEq, Call.begin_resize.injEq, and_true,
          Option.some.injEq, Prod.mk.injEq]
        constructor
        · intro hq
          exact ⟨s, ⟨hq, rfl⟩, hmode⟩
        · rintro ⟨_, ⟨hq, _⟩, _⟩
          exact hq
      · simp [hmode]
  · intro hno
    unfold on_request_resize
    cases h : c.input.seat_from_wlr_seat er.seat.seat with
    | none => simp
    | some seat =>
      obtain ⟨q, s⟩ := seat
      by_cases hmode : s.cursor.mode = Cursor.Mode.Passthrough
      · exact absurd ⟨q, s, h, hmode⟩ hno
      · simp [hmode]

/-- C2, at concrete inputs: a request-move from the device of the passthrough seat starts a
grab on that seat, and a request-resize from an unknown device changes nothing. -/
theorem request_move_resize_grab_iff_witness :
    (on_request_move example_env ⟨⟨61⟩, 0⟩ (example_ctx example_view)).calls =
      [Call.begin_move 60 100] ∧
    on_request_resize example_env ⟨⟨99⟩, 0, 3⟩ (example_ctx example_view) =
      example_ctx example_view :=
  ⟨((request_move_resize_grab_iff example_env ⟨⟨61⟩, 0⟩ ⟨⟨99⟩, 0, 3⟩
      (example_ctx example_view)).1 60).mpr ⟨⟨61, ⟨Cursor.Mode.Passthrough⟩⟩, by decide, rfl⟩,
   (request_move_resize_grab_iff example_env ⟨⟨61⟩, 0⟩ ⟨⟨99⟩, 0, 3⟩
      (example_ctx example_view)).2.2.2 (by
        rintro ⟨p, s, h, _⟩
        have hnone : (example_ctx example_view).input.seat_from_wlr_seat 99 = none := by decide
        rw [hnone] at h
        cases h)⟩

/-- C3: if maximized and a non-null fullscreen_output do not both hold before a
request-maximize, request-fullscreen, state-change or surface-commit event is handled, they
do not both hold after the handler returns. -/
theorem maximized_fullscreen_exclusive_preserved (env : Env) (s : wl_shell_surface_t)
    (e : wl_shell_surface_set_fullscreen_event_t) (c : Ctx)
    (h : ¬ (c.view.maximized = true ∧ c.view.fullscreen_output ≠ none)) :
    ¬ ((on_request_maximize env c).view.maximized = true ∧
        (on_request_maximize env c).view.fullscreen_output ≠ none) ∧
    ¬ ((on_request_fullscreen env e c).view.maximized = true ∧
        (on_request_fullscreen env e c).view.fullscreen_output ≠ none) ∧
    ¬ ((on_set_state env s c).view.maximized = true ∧
        (on_set_state env s c).view.fullscreen_output ≠ none) ∧
    ¬ ((on_surface_commit s c).view.maximized = true ∧
        (on_surface_commit s c).view.fullscreen_output ≠ none) := by
  obtain ⟨this, v, input, calls⟩ := c
  simp only at h
  refine ⟨?_, ?_, ?_, ?_⟩
  · cases hmax : v.maximized <;> cases hf : v.fullscreen_output <;> cases hm : v.mapped <;>
      simp_all [on_request_maximize, Ctx.maximize, View.maximize, View.restore, View.place]
  · cases hmax : v.maximized <;> cases hf : v.fullscreen_output <;> cases hm : v.mapped <;>
      cases ho : (e.output <|> env.get_output v) <;>
      simp_all [on_request_fullscreen, Ctx.set_fullscreen, View.set_fullscreen, View.restore,
        View.place]
  · cases hs : s.state <;> cases hmax : v.maximized <;> cases hf : v.fullscreen_output <;>
      cases hm : v.mapped <;>
      simp_all [on_set_state, Ctx.maximize, Ctx.set_fullscreen, View.maximize,
        View.set_fullscreen, View.restore]
  · cases hx : v.pending_move_resize.update_x <;> cases hy : v.pending_move_resize.update_y <;>
      simp_all [on_surface_commit, Ctx.apply_damage, Ctx.update_size, Ctx.update_position,
        View.update_size, View.update_position]

/-- C3, at a concrete input: a fullscreen View that receives a request-maximize ends
maximized with a null fullscreen_output. -/
theorem maximized_fullscreen_exclusive_preserved_witness :
    ¬ ((example_ctx { example_view with fullscreen_output := some 7 }).view.maximized = true ∧
       (example_ctx { example_view with fullscreen_output := some 7 }).view.fullscreen_output
          ≠ none) ∧
    ¬ ((on_request_maximize example_env
          (example_ctx { example_view with fullscreen_output := some 7 })).view.maximized
            = true ∧
       (on_request_maximize example_env
          (example_ctx { example_view with fullscreen_output := some 7 })).view.fullscreen_output
            ≠ none) ∧
    (on_request_maximize example_env
      (example_ctx { example_view with fullscreen_output := some 7 })).view.maximized = true :=
  ⟨by decide,
   (maximized_fullscreen_exclusive_preserved example_env
      (example_surface wl_shell_surface_state.NONE) ⟨0, 0, none⟩
      (example_ctx { example_view with fullscreen_output := some 7 }) (by decide)).1,
   by decide⟩

/-- C4: after the commit handler returns the pending move/resize request is cleared,
update_x and update_y are both false whatever they were before; a second commit (of any
committed size, in particular the same one) leaves the position of the View unchanged. -/
theorem commit_clears_pending (s1 s2 : wl_shell_surface_t) (c : Ctx) :
    (on_surface_commit s1 c).view.pending_move_resize.update_x = false ∧
    (on_surface_commit s1 c).view.pending_move_resize.update_y = false ∧
    (on_surface_commit s2 (on_surface_commit s1 c)).view.x = (on_surface_commit s1 c).view.x ∧
    (on_surface_commit s2 (on_surface_commit s1 c)).view.y = (on_surface_commit s1 c).view.y := by
  obtain ⟨this, v, input, calls⟩ := c
  cases hx : v.pending_move_resize.update_x <;> cases hy : v.pending_move_resize.update_y <;>
    simp [on_surface_commit, Ctx.apply_damage, Ctx.update_size, Ctx.update_position,
        View.update_size, View.update_position, hx, hy]

/-- C5: when the addresses of the collection are pairwise distinct, the destroy handler of
the View at address this leaves a collection that has no entry at that address, still has
every entry at another address, and keeps the remaining entries in their relative order
(it is the original collection filtered by address). -/
theorem on_destroy_removes (this : Ptr) (d : Desktop) (hnd : (d.views.map Prod.fst).Nodup) :
    (∀ e ∈ (on_destroy this d).views, e.1 ≠ this) ∧
    (∀ e ∈ d.views, e.1 ≠ this → e ∈ (on_destroy this d).views) ∧
    List.Sublist (on_destroy this d).views d.views ∧
    (on_destroy this d).views = d.views.filter (fun e => decide (e.1 ≠ this)) := by
  have hf := erase_this_eq_filter d.views this hnd
  unfold on_destroy
  rw [hf]
  refine ⟨?_, ?_, List.filter_sublist _, rfl⟩
  · intro e he
    simpa using (List.mem_filter.mp he).2
  · intro e he hne
    exact List.mem_filter.mpr ⟨he, by simpa using hne⟩

/-- C5, at a concrete input: destroying the middle one of three views leaves the first and
the third, in that order. -/
theorem on_destroy_removes_witness :
    (example_desktop.views.map Prod.fst).Nodup ∧
    (on_destroy 101 example_desktop).views = [(100, example_parent),
      (102, ⟨{ example_view with x := 300, y := 0 }, ViewKind.WlShellSurface 42⟩)] := by
  refine ⟨by decide, ?_⟩
  rw [(on_destroy_removes 101 example_desktop (by decide)).2.2.2]
  decide!

/-- C6: create_popup appends exactly one child at the end of the children of the View, keeps
the existing children and their order, and returns the reference to the appended child
(the last entry), whose back-reference is this View. -/
theorem create_popup_appends (env : Env) (wlr_popup : surface_t) (fresh : Ptr) (c : Ctx) :
    (create_popup env wlr_popup fresh c).1.view.children =
        c.view.children ++
          [((create_popup env wlr_popup fresh c).2,
            WlShellPopup.ctor c.this (env.container_of wlr_popup))] ∧
    (create_popup env wlr_popup fresh c).1.view.children.length =
        c.view.children.length + 1 ∧
    (create_popup env wlr_popup fresh c).1.view.children.take c.view.children.length =
        c.view.children ∧
    (create_popup env wlr_popup fresh c).1.view.children.getLast? =
        some ((create_popup env wlr_popup fresh c).2,
          WlShellPopup.ctor c.this (env.container_of wlr_popup)) ∧
    (create_popup env wlr_popup fresh c).2 = fresh ∧
    (WlShellPopup.ctor c.this (env.container_of wlr_popup)).view = c.this := by
  simp [create_popup, ptr_vec.push_back, WlShellPopup.ctor]

/-- C7: for every View state and every input surface, create_popup of the
remote-client-bridge variant fails its assertion: it returns no child and no state. -/
theorem xwayland_create_popup_aborts (c : Ctx) (wlr_popup : surface_t) :
    XwaylandSurface.create_popup c wlr_popup = Except.error Abort.assertion_failed ∧
    ∀ r, XwaylandSurface.create_popup c wlr_popup ≠ Except.ok r := by
  simp [XwaylandSurface.create_popup]

/-- C8: provided View::setup does not unmap and a transient surface carries its transient
state, handle_wl_shell_surface returns; a surface in the popup state leaves the desktop
unchanged; any other surface appends exactly one mapped legacy-shell View at the end of the
collection. With v0 the new View after map and setup: if the surface is transient and the
parent search over the collection (new View included) finds a View, the new View is v0
moved once to (parent.x + transient.x, parent.y + transient.y); if the surface is not
transient or no View is bound to its parent, the new View is v0 and move is not called. -/
theorem handle_wl_shell_surface_spec (env : Env) (surface : wl_shell_surface_t) (fresh : Ptr)
    (raw : View) (d : Desktop)
    (hsetup : ∀ v, (env.setup v).mapped = v.mapped)
    (hts : surface.state = wl_shell_surface_state.TRANSIENT → surface.transient_state ≠ none) :
    ∃ d' v0, d.handle_wl_shell_surface env surface fresh raw = Except.ok d' ∧
      v0 = env.setup ((WlShellSurface.ctor raw surface).view.map surface.surface) ∧
      (surface.state = wl_shell_surface_state.POPUP → d' = d) ∧
      (surface.state ≠ wl_shell_surface_state.POPUP →
        ∃ v, d'.views = d.views ++ [(fresh, ⟨v, ViewKind.WlShellSurface surface.addr⟩)] ∧
          v.mapped = true ∧
          (∀ parent t, surface.state = wl_shell_surface_state.TRANSIENT →
            find_if (d.views ++ [(fresh, ⟨v0, ViewKind.WlShellSurface surface.addr⟩)])
              (is_parent_of surface) = some parent →
            surface.transient_state = some t →
              v.x = parent.2.view.x + t.x ∧ v.y = parent.2.view.y + t.y ∧
              d'.calls = d.calls ++
                [Call.ping surface.addr, Call.map fresh surface.surface.addr, Call.setup fresh,
                 Call.move fresh (parent.2.view.x + t.x) (parent.2.view.y + t.y)]) ∧
          ((surface.state ≠ wl_shell_surface_state.TRANSIENT ∨
              ∀ e ∈ d.views ++ [(fresh, ⟨v0, ViewKind.WlShellSurface surface.addr⟩)],
                is_parent_of surface e.2 = false) →
              v = v0 ∧
              d'.calls = d.calls ++
                [Call.ping surface.addr, Call.map fresh surface.surface.addr,
                 Call.setup fresh])) := by
  have hmapped : (env.setup ((WlShellSurface.ctor raw surface).view.map surface.surface)).mapped
      = true := by
    rw [hsetup]; rfl
  by_cases hpop : surface.state = wl_shell_surface_state.POPUP
  · refine ⟨d, _, ?_, rfl, fun _ => rfl, fun h => absurd hpop h⟩
    simp [Desktop.handle_wl_shell_surface, hpop]
  · by_cases htr : surface.state = wl_shell_surface_state.TRANSIENT
    · cases hfind : find_if
          (d.views ++ [(fresh, ⟨env.setup ((WlShellSurface.ctor raw surface).view.map
            surface.surface), ViewKind.WlShellSurface surface.addr⟩)]) (is_parent_of surface) with
      | none =>
        refine ⟨⟨d.views ++ [(fresh, ⟨env.setup ((WlShellSurface.ctor raw surface).view.map
            surface.surface), ViewKind.WlShellSurface surface.addr⟩)],
          d.calls ++ [Call.ping surface.addr, Call.map fresh surface.surface.addr,
            Call.setup fresh]⟩, _, ?_, rfl, fun h => absurd h hpop,
          fun _ => ⟨_, rfl, hmapped, ?_, fun _ => ⟨rfl, rfl⟩⟩⟩
        · simp [Desktop.handle_wl_shell_surface, htr, ptr_vec.push_back, hfind, ctor_kind]
        · intro parent t _ hp
          rw [hfind] at hp
          exact absurd hp (by simp)
      | some parent =>
        cases hstate : surface.transient_state with
        | none => exact absurd hstate (hts htr)
        | some t =>
          refine ⟨⟨d.views ++ [(fresh, ⟨(env.setup ((WlShellSurface.ctor raw surface).view.map
              surface.surface)).move (parent.2.view.x + t.x) (parent.2.view.y + t.y),
              ViewKind.WlShellSurface surface.addr⟩)],
            d.calls ++ [Call.ping surface.addr, Call.map fresh surface.surface.addr,
              Call.setup fresh,
              Call.move fresh (parent.2.view.x + t.x) (parent.2.view.y + t.y)]⟩, _, ?_, rfl,
            fun h => absurd h hpop, fun _ => ⟨_, rfl, ?_, ?_, ?_⟩⟩
          · simp [Desktop.handle_wl_shell_surface, htr, ptr_vec.push_back, hfind, ctor_kind,
              hstate]
          · simp [View.move, hmapped]
          · intro parent2 t2 _ hp ht
            rw [hfind] at hp
            cases hp
            cases ht
            simp [View.move, hmapped]
          · rintro (h | h)
            · exact absurd htr h
            · rw [(find_if_eq_none_iff _ _).mpr h] at hfind
              exact absurd hfind (by simp)
    · refine ⟨⟨d.views ++ [(fresh, ⟨env.setup ((WlShellSurface.ctor raw surface).view.map
          surface.surface), ViewKind.WlShellSurface surface.addr⟩)],
        d.calls ++ [Call.ping surface.addr, Call.map fresh surface.surface.addr,
          Call.setup fresh]⟩, _, ?_, rfl, fun h => absurd h hpop,
        fun _ => ⟨_, rfl, hmapped, fun _ _ h => absurd h htr, fun _ => ⟨rfl, rfl⟩⟩⟩
      simp [Desktop.handle_wl_shell_surface, hpop, htr, ptr_vec.push_back, ctor_kind]

/-- C8, at a concrete input: a transient surface offset by (5, 6) from the View at (10, 20)
yields a fourth View at (15, 26). -/
theorem handle_wl_shell_surface_spec_witness :
    (∀ v, (example_env.setup v).mapped = v.mapped) ∧
    (example_transient.state = wl_shell_surface_state.TRANSIENT →
      example_transient.transient_state ≠ none) ∧
    ∃ d', example_desktop.handle_wl_shell_surface example_env example_transient 103 example_view
        = Except.ok d' ∧
      ∃ v, d'.views = example_desktop.views ++ [(103, ⟨v, ViewKind.WlShellSurface 43⟩)] ∧
        v.x = 15 ∧ v.y = 26 := by
  refine ⟨fun _ => rfl, by decide, ?_⟩
  obtain ⟨d', v0, hd, hv0, _, h⟩ := handle_wl_shell_surface_spec example_env example_transient
    103 example_view example_desktop (fun _ => rfl) (by decide)
  obtain ⟨v, hv, _, hmove, _⟩ := h (by decide)
  obtain ⟨hx, hy, _⟩ := hmove (100, example_parent) ⟨5, 6⟩ rfl (by subst hv0; decide!) rfl
  refine ⟨d', hd, v, hv, ?_, ?_⟩
  · rw [hx]; decide!
  · rw [hy]; decide!

/-- C9: the state-change handler adds to the call record maximize(false) exactly when the
View is maximized and the backend state is not MAXIMIZED, then set_fullscreen(false, null)
exactly when fullscreen_output is non-null and the backend state is not FULLSCREEN, and
nothing else (so never maximize(true) nor set_fullscreen(true, _)); a View that is neither
maximized nor fullscreen before the handler is neither after it, the whole state being
unchanged, for every backend state. -/
theorem on_set_state_only_turns_off (env : Env) (s : wl_shell_surface_t) (c : Ctx) :
    (on_set_state env s c).calls =
        c.calls
          ++ (if c.view.maximized = true ∧ s.state ≠ wl_shell_surface_state.MAXIMIZED
              then [Call.maximize c.this false] else [])
          ++ (if c.view.fullscreen_output ≠ none ∧ s.state ≠ wl_shell_surface_state.FULLSCREEN
              then [Call.set_fullscreen c.this false none] else []) ∧
    (∀ call ∈ (on_set_state env s c).calls,
        call ∈ c.calls ∨ call = Call.maximize c.this false ∨
          call = Call.set_fullscreen c.this false none) ∧
    (c.view.maximized = false ∧ c.view.fullscreen_output = none →
        (on_set_state env s c).view.maximized = false ∧
        (on_set_state env s c).view.fullscreen_output = none ∧
        on_set_state env s c = c) := by
  obtain ⟨this, v, input, calls⟩ := c
  cases hs : s.state <;> cases hmax : v.maximized <;> cases hf : v.fullscreen_output <;>
    cases hm : v.mapped <;>
    simp [on_set_state, Ctx.maximize, Ctx.set_fullscreen, View.maximize, View.set_fullscreen,
      View.restore, hs, hmax, hf, hm] <;> tauto

/-- C9, at a concrete input: a View that is maximized and fullscreen while the backend
reports TOPLEVEL gets maximize(false) and then set_fullscreen(false, null), nothing else. -/
theorem on_set_state_only_turns_off_witness :
    (on_set_state example_env (example_surface wl_shell_surface_state.TOPLEVEL)
      (example_ctx { example_view with maximized := true, fullscreen_output := some 7 })).calls
      = [Call.maximize 100 false, Call.set_fullscreen 100 false none] :=
  (on_set_state_only_turns_off example_env (example_surface wl_shell_surface_state.TOPLEVEL)
    (example_ctx { example_view with maximized := true, fullscreen_output := some 7 })).1

/-- C10 (as stated, refuted): pending.x is the double nearest to -50.7, pending.width is
100 and update_x is set; a surface of committed width 200 commits. The new x is the double
nearest to -150.7 and the new width is 200, yet new x + new width differs from pending.x +
pending.width, in double arithmetic and exactly; and the new x is not the exact value of
pending.x + pending.width - 200. -/
theorem commit_far_edge_not_preserved :
    double.round (-3567695329807565 / 70368744177664) = example_fraction ∧
    (on_surface_commit (example_surface wl_shell_surface_state.NONE)
      (example_ctx example_pending_view)).view.x =
        double.finite (-2651142436893491 / 17592186044416) ∧
    (on_surface_commit (example_surface wl_shell_surface_state.NONE)
      (example_ctx example_pending_view)).view.width = 200 ∧
    (on_surface_commit (example_surface wl_shell_surface_state.NONE)
        (example_ctx example_pending_view)).view.x +
      ((on_surface_commit (example_surface wl_shell_surface_state.NONE)
        (example_ctx example_pending_view)).view.width : double) ≠
      example_pending_view.pending_move_resize.x +
        (example_pending_view.pending_move_resize.width : double) ∧
    (-2651142436893491 / 17592186044416 : ℚ) + 200 ≠
      -3567695329807565 / 70368744177664 + 100 ∧
    (-2651142436893491 / 17592186044416 : ℚ) ≠
      -3567695329807565 / 70368744177664 + 100 - 200 := by
  decide!

/-- C10 (amended): on every surface commit the size of the View becomes the committed width
and height as `uint32_t` (the same numbers when they are non-negative). If update_x was
set, the new x is the double pending.x + pending.width - committed width, each operation
rounded to nearest; otherwise x is unchanged; likewise for y. For a non-negative committed
size the far edge is kept (new x + new width = pending.x + pending.width) whenever neither
operation rounds, and in particular whenever pending.x is an integer of magnitude at most
2^52 and pending.width is a `uint32_t`; likewise for y. -/
theorem commit_geometry (s : wl_shell_surface_t) (c : Ctx) :
    (on_surface_commit s c).view.width = to_uint32 s.surface.current.width ∧
    (on_surface_commit s c).view.height = to_uint32 s.surface.current.height ∧
    (0 ≤ s.surface.current.width → s.surface.current.width < 2 ^ 31 →
      ((on_surface_commit s c).view.width : Int) = s.surface.current.width) ∧
    (0 ≤ s.surface.current.height → s.surface.current.height < 2 ^ 31 →
      ((on_surface_commit s c).view.height : Int) = s.surface.current.height) ∧
    (c.view.pending_move_resize.update_x = true →
      (on_surface_commit s c).view.x =
        c.view.pending_move_resize.x + c.view.pending_move_resize.width
          - s.surface.current.width) ∧
    (c.view.pending_move_resize.update_x = false →
      (on_surface_commit s c).view.x = c.view.x) ∧
    (c.view.pending_move_resize.update_y = true →
      (on_surface_commit s c).view.y =
        c.view.pending_move_resize.y + c.view.pending_move_resize.height
          - s.surface.current.height) ∧
    (c.view.pending_move_resize.update_y = false →
      (on_surface_commit s c).view.y = c.view.y) ∧
    (∀ a : ℚ, c.view.pending_move_resize.update_x = true →
      0 ≤ s.surface.current.width → s.surface.current.width < 2 ^ 31 →
      c.view.pending_move_resize.x = double.finite a →
      c.view.pending_move_resize.x + c.view.pending_move_resize.width =
        double.finite (a + c.view.pending_move_resize.width) →
      c.view.pending_move_resize.x + c.view.pending_move_resize.width
          - s.surface.current.width =
        double.finite (a + c.view.pending_move_resize.width - s.surface.current.width) →
      (on_surface_commit s c).view.x =
        double.finite (a + c.view.pending_move_resize.width - s.surface.current.width) ∧
      (a + c.view.pending_move_resize.width - s.surface.current.width)
          + (on_surface_commit s c).view.width = a + c.view.pending_move_resize.width) ∧
    (∀ a : ℚ, c.view.pending_move_resize.update_y = true →
      0 ≤ s.surface.current.height → s.surface.current.height < 2 ^ 31 →
      c.view.pending_move_resize.y = double.finite a →
      c.view.pending_move_resize.y + c.view.pending_move_resize.height =
        double.finite (a + c.view.pending_move_resize.height) →
      c.view.pending_move_resize.y + c.view.pending_move_resize.height
          - s.surface.current.height =
        double.finite (a + c.view.pending_move_resize.height - s.surface.current.height) →
      (on_surface_commit s c).view.y =
        double.finite (a + c.view.pending_move_resize.height - s.surface.current.height) ∧
      (a + c.view.pending_move_resize.height - s.surface.current.height)
          + (on_surface_commit s c).view.height = a + c.view.pending_move_resize.height) ∧
    (∀ z : Int, c.view.pending_move_resize.update_x = true →
      0 ≤ s.surface.current.width → s.surface.current.width < 2 ^ 31 →
      c.view.pending_move_resize.x = double.finite z → z.natAbs ≤ 2 ^ 52 →
      c.view.pending_move_resize.width < 2 ^ 32 →
      (on_surface_commit s c).view.x =
        double.finite (z + c.view.pending_move_resize.width - s.surface.current.width) ∧
      (on_surface_commit s c).view.x + ((on_surface_commit s c).view.width : double) =
        c.view.pending_move_resize.x + (c.view.pending_move_resize.width : double)) ∧
    (∀ z : Int, c.view.pending_move_resize.update_y = true →
      0 ≤ s.surface.current.height → s.surface.current.height < 2 ^ 31 →
      c.view.pending_move_resize.y = double.finite z → z.natAbs ≤ 2 ^ 52 →
      c.view.pending_move_resize.height < 2 ^ 32 →
      (on_surface_commit s c).view.y =
        double.finite (z + c.view.pending_move_resize.height - s.surface.current.height) ∧
      (on_surface_commit s c).view.y + ((on_surface_commit s c).view.height : double) =
        c.view.pending_move_resize.y + (c.view.pending_move_resize.height : double)) := by
  have hW : (on_surface_commit s c).view.width = to_uint32 s.surface.current.width := by
    obtain ⟨this, v, input, calls⟩ := c
    cases hx : v.pending_move_resize.update_x <;> cases hy : v.pending_move_resize.update_y <;>
      simp [on_surface_commit, Ctx.apply_damage, Ctx.update_size, Ctx.update_position,
        View.update_size, View.update_position, hx, hy]
  have hH : (on_surface_commit s c).view.height = to_uint32 s.surface.current.height := by
    obtain ⟨this, v, input, calls⟩ := c
    cases hx : v.pending_move_resize.update_x <;> cases hy : v.pending_move_resize.update_y <;>
      simp [on_surface_commit, Ctx.apply_damage, Ctx.update_size, Ctx.update_position,
        View.update_size, View.update_position, hx, hy]
  have hX1 : c.view.pending_move_resize.update_x = true →
      (on_surface_commit s c).view.x =
        c.view.pending_move_resize.x + c.view.pending_move_resize.width
          - s.surface.current.width := by
    obtain ⟨this, v, input, calls⟩ := c
    intro hx
    simp only at hx
    cases hy : v.pending_move_resize.update_y <;>
      simp [on_surface_commit, Ctx.apply_damage, Ctx.update_size, Ctx.update_position,
        View.update_size, View.update_position, hx, hy]
  have hX0 : c.view.pending_move_resize.update_x = false →
      (on_surface_commit s c).view.x = c.view.x := by
    obtain ⟨this, v, input, calls⟩ := c
    intro hx
    simp only at hx
    cases hy : v.pending_move_resize.update_y <;>
      simp [on_surface_commit, Ctx.apply_damage, Ctx.update_size, Ctx.update_position,
        View.update_size, View.update_position, hx, hy]
  have hY1 : c.view.pending_move_resize.update_y = true →
      (on_surface_commit s c).view.y =
        c.view.pending_move_resize.y + c.view.pending_move_resize.height
          - s.surface.current.height := by
    obtain ⟨this, v, input, calls⟩ := c
    intro hy
    simp only at hy
    cases hx : v.pending_move_resize.update_x <;>
      simp [on_surface_commit, Ctx.apply_damage, Ctx.update_size, Ctx.update_position,
        View.update_size, View.update_position, hx, hy]
  have hY0 : c.view.pending_move_resize.update_y = false →
      (on_surface_commit s c).view.y = c.view.y := by
    obtain ⟨this, v, input, calls⟩ := c
    intro hy
    simp only at hy
    cases hx : v.pending_move_resize.update_x <;>
      simp [on_surface_commit, Ctx.apply_damage, Ctx.update_size, Ctx.update_position,
        View.update_size, View.update_position, hx, hy]
  have hexact : ∀ (a : ℚ) (pw : Nat) (w : Int) (n : Nat), 0 ≤ w → w < 2 ^ 31 →
      n = to_uint32 w → a + pw - w + n = a + pw := by
    intro a pw w n h0 h1 hn
    have hc : ((n : Nat) : Int) = w := by rw [hn]; exact to_uint32_of_int_range w h0 h1
    have hq : ((n : Nat) : ℚ) = (w : ℚ) := by exact_mod_cast hc
    rw [hq]; ring
  have hint : ∀ (z : Int) (pw : Nat) (w : Int) (n : Nat) (px x : double), 0 ≤ w → w < 2 ^ 31 →
      n = to_uint32 w → px = double.finite z → z.natAbs ≤ 2 ^ 52 → pw < 2 ^ 32 →
      x = px + (pw : double) - (w : double) →
      x = double.finite (z + pw - w) ∧ x + (n : double) = px + (pw : double) := by
    intro z pw w n px x h0 h1 hn hpx hz hpw hx
    have hc : ((n : Nat) : Int) = w := by rw [hn]; exact to_uint32_of_int_range w h0 h1
    have e1 : ((pw : Nat) : double) = double.finite ((pw : Int) : ℚ) := by
      rw [of_nat_exact pw (by omega)]; simp
    have e2 : ((w : Int) : double) = double.finite (w : ℚ) := of_int_exact w (by omega)
    have e3 : ((n : Nat) : double) = double.finite (w : ℚ) := by
      rw [of_nat_exact n (by omega)]
      congr 1
      exact_mod_cast hc
    have s1 : px + (pw : double) = double.finite ((z + pw : Int) : ℚ) := by
      rw [hpx, e1]; exact add_int_exact z pw (by omega)
    have s2 : x = double.finite ((z + pw - w : Int) : ℚ) := by
      rw [hx, s1, e2]; exact sub_int_exact (z + pw) w (by omega)
    refine ⟨by rw [s2]; push_cast; rfl, ?_⟩
    rw [s2, e3, s1]
    have := add_int_exact (z + pw - w) w (by omega)
    rw [this]
    congr 2
    ring
  refine ⟨hW, hH, ?_, ?_, hX1, hX0, hY1, hY0, ?_, ?_, ?_, ?_⟩
  · intro h0 h1
    rw [hW]; exact to_uint32_of_int_range _ h0 h1
  · intro h0 h1
    rw [hH]; exact to_uint32_of_int_range _ h0 h1
  · intro a hx h0 h1 _ _ hd
    refine ⟨by rw [hX1 hx, hd], ?_⟩
    exact hexact a _ _ _ h0 h1 hW
  · intro a hy h0 h1 _ _ hd
    refine ⟨by rw [hY1 hy, hd], ?_⟩
    exact hexact a _ _ _ h0 h1 hH
  · intro z hx h0 h1 hpx hz hpw
    exact hint z _ _ _ _ _ h0 h1 hW hpx hz hpw (hX1 hx)
  · intro z hy h0 h1 hpy hz hph
    exact hint z _ _ _ _ _ h0 h1 hH hpy hz hph (hY1 hy)

/-- C10 (amended), at a concrete input: with a pending request at x = 5 of width 300 and
update_x set, a commit of width 200 puts the View at x = 105, keeps the far edge at 305 and
leaves y at 20. -/
theorem commit_geometry_witness :
    (on_surface_commit (example_surface wl_shell_surface_state.NONE)
      (example_ctx { example_view with
        pending_move_resize := ⟨true, false, 5, 6, 300, 400⟩ })).view.x = 105 ∧
    (on_surface_commit (example_surface wl_shell_surface_state.NONE)
        (example_ctx { example_view with
          pending_move_resize := ⟨true, false, 5, 6, 300, 400⟩ })).view.x +
      ((on_surface_commit (example_surface wl_shell_surface_state.NONE)
        (example_ctx { example_view with
          pending_move_resize := ⟨true, false, 5, 6, 300, 400⟩ })).view.width : double) =
      (5 : double) + ((300 : Nat) : double) ∧
    (on_surface_commit (example_surface wl_shell_surface_state.NONE)
      (example_ctx { example_view with
        pending_move_resize := ⟨true, false, 5, 6, 300, 400⟩ })).view.y = 20 := by
  have h := commit_geometry (example_surface wl_shell_surface_state.NONE)
    (example_ctx { example_view with pending_move_resize := ⟨true, false, 5, 6, 300, 400⟩ })
  obtain ⟨_, _, _, _, _, _, _, hy, _, _, hx, _⟩ := h
  have hx5 := hx 5 rfl (by decide) (by decide) (by decide!) (by decide) (by decide)
  refine ⟨?_, hx5.2, ?_⟩
  · rw [hx5.1]; decide!
  · rw [hy rfl]; rfl

end cloth
